import Mathlib

/-!
Shallow embedding of the `RideMatch` Solidity contract
(src/src/providers/WalletProvider.tsx, embedded Solidity source).

Modelling conventions:
* `uint256` / `int256` become `Nat` / `Int`; Solidity ^0.8 *checked*
  arithmetic is modelled explicitly: an operation whose mathematical result
  leaves the machine range returns `Except.error Err.Panic`, exactly as the
  EVM reverts with a `Panic`.  Monotonic id counters, whose overflow is
  unreachable, stay plain `Nat`.
* `mapping(K => V)` becomes a total function with the zero-initialized
  default record, matching Solidity mapping semantics.
* An external function becomes `args → ContractState → Except Err ContractState`.
  A revert (require failure, panic, failed `transfer`) yields `Except.error`;
  the EVM discards every partial write of a reverted call, which is the
  `applyOp` wrapper below.
* `payable(x).transfer(a)` is modelled by `transfer`: it fails when the
  contract balance is insufficient or when the recipient refuses the value
  (the `accepts` oracle, standing for the callee's receive behaviour).
  External account balances track funds paid out by the contract.
* Events become an append-only `events : List Event` field.
-/

set_option maxRecDepth 200000

namespace RideMatch

/-- `2^256 - 1`, `type(uint256).max`. -/
def UINT_MAX : Nat := 2 ^ 256 - 1

/-- Smallest `int256`. -/
def INT256_MIN : Int := -(2 ^ 255)

/-- Largest `int256`. -/
def INT256_MAX : Int := 2 ^ 255 - 1

/-- Failure kinds of the contract (require messages and EVM panics). -/
inductive Err where
  | NotFound
  | Unauthorized
  | InvalidState
  | InvalidAmount
  | NoAvailableDriver
  | InvalidDriver
  | TransferFailure
  | Panic
deriving DecidableEq

/-- Checked `int256` subtraction (Solidity ^0.8 reverts on overflow). -/
def subInt256 (a b : Int) : Except Err Int :=
  if a - b < INT256_MIN ∨ INT256_MAX < a - b then Except.error Err.Panic
  else Except.ok (a - b)

/-- `d < 0 ? uint256(-d) : uint256(d)`: checked negation (reverts at
`INT256_MIN`), then the now-nonnegative value reinterpreted as `uint256`. -/
def absUint256 (d : Int) : Except Err Nat :=
  if d < 0 then
    if d = INT256_MIN then Except.error Err.Panic else Except.ok (-d).toNat
  else Except.ok d.toNat

/-- Checked `uint256` multiplication. -/
def mulU256 (a b : Nat) : Except Err Nat :=
  if UINT_MAX < a * b then Except.error Err.Panic else Except.ok (a * b)

/-- Checked `uint256` addition. -/
def addU256 (a b : Nat) : Except Err Nat :=
  if UINT_MAX < a + b then Except.error Err.Panic else Except.ok (a + b)

/-- Checked `uint256` subtraction. -/
def subU256 (a b : Nat) : Except Err Nat :=
  if a < b then Except.error Err.Panic else Except.ok (a - b)

/-- `RideStatus` enum. -/
inductive RideStatus where
  | Requested
  | Matched
  | InProgress
  | Completed
  | Cancelled
deriving DecidableEq

/-- `struct Location`: fixed-point coordinates scaled by `10^6`. -/
structure Location where
  latitude : Int
  longitude : Int
deriving DecidableEq

/-- `struct Driver`.  Addresses are modelled as `Nat` (0 = zero address). -/
structure Driver where
  id : Nat
  driverAddress : Nat
  name : String
  rating : Nat
  carModel : String
  licensePlate : String
  location : Location
  isAvailable : Bool
deriving DecidableEq

/-- `struct RideRequest`. -/
structure RideRequest where
  id : Nat
  passenger : Nat
  pickupLocation : Location
  destinationLocation : Location
  fare : Nat
  timestamp : Nat
  status : RideStatus
  assignedDriverId : Nat
deriving DecidableEq

/-- Contract events. -/
inductive Event where
  | DriverRegistered (driverId driverAddress : Nat) (name : String)
  | RideRequested (rideId passenger : Nat) (pickupLat pickupLng : Int)
  | RideMatched (rideId driverId fare : Nat)
  | RideCompleted (rideId fare : Nat)
  | RideCancelled (rideId : Nat)
  | DriverLocationUpdated (driverId : Nat) (latitude longitude : Int)
deriving DecidableEq

/-- Zero-initialized `Driver` (Solidity mapping default). -/
def emptyDriver : Driver :=
  { id := 0, driverAddress := 0, name := "", rating := 0, carModel := "",
    licensePlate := "", location := { latitude := 0, longitude := 0 },
    isAvailable := false }

/-- Zero-initialized `RideRequest` (Solidity mapping default). -/
def emptyRide : RideRequest :=
  { id := 0, passenger := 0,
    pickupLocation := { latitude := 0, longitude := 0 },
    destinationLocation := { latitude := 0, longitude := 0 },
    fare := 0, timestamp := 0, status := RideStatus.Requested,
    assignedDriverId := 0 }

/-- The contract's storage, plus the ETH accounting it can observe
(`contractBalance` is the contract's own balance, `balances a` the funds
paid out so far to external account `a`) and the emitted event log. -/
structure ContractState where
  owner : Nat
  rideCount : Nat
  driverCount : Nat
  platformFeePercent : Nat
  rideRequests : Nat → RideRequest
  drivers : Nat → Driver
  passengerRides : Nat → List Nat
  driverRides : Nat → List Nat
  contractBalance : Nat
  balances : Nat → Nat
  events : List Event

/-- Point update of a mapping. -/
def setMap {α : Type} (m : Nat → α) (k : Nat) (v : α) : Nat → α :=
  fun x => if x = k then v else m x

/-- State right after the constructor: `owner = deployer`,
`platformFeePercent = 250`. -/
def initState (deployer : Nat) : ContractState :=
  { owner := deployer, rideCount := 0, driverCount := 0,
    platformFeePercent := 250,
    rideRequests := fun _ => emptyRide,
    drivers := fun _ => emptyDriver,
    passengerRides := fun _ => [],
    driverRides := fun _ => [],
    contractBalance := 0,
    balances := fun _ => 0,
    events := [] }

/-- `payable(toAddr).transfer(amount)`: moves `amount` from the contract to
`toAddr`; reverts when the contract balance is insufficient or the
recipient (per the `accepts` oracle) refuses the funds. -/
def transfer (accepts : Nat → Bool) (toAddr amount : Nat)
    (st : ContractState) : Except Err ContractState :=
  if st.contractBalance < amount then Except.error Err.TransferFailure
  else if accepts toAddr = false then Except.error Err.TransferFailure
  else Except.ok { st with
    contractBalance := st.contractBalance - amount,
    balances := setMap st.balances toAddr (st.balances toAddr + amount) }

/-- `registerDriver`: unconditional, assigns the next id, default rating
4500, `isAvailable = true`, emits `DriverRegistered`. -/
def registerDriver (caller : Nat) (name carModel licensePlate : String)
    (latitude longitude : Int) (st : ContractState) :
    Except Err ContractState :=
  let newId := st.driverCount + 1
  Except.ok { st with
    driverCount := newId,
    drivers := setMap st.drivers newId
      { id := newId, driverAddress := caller, name := name, rating := 4500,
        carModel := carModel, licensePlate := licensePlate,
        location := { latitude := latitude, longitude := longitude },
        isAvailable := true },
    events := st.events ++ [Event.DriverRegistered newId caller name] }

/-- `updateDriverLocation` (guarded by the `onlyDriver` modifier). -/
def updateDriverLocation (caller driverId : Nat) (latitude longitude : Int)
    (st : ContractState) : Except Err ContractState :=
  if (st.drivers driverId).driverAddress ≠ caller then
    Except.error Err.Unauthorized
  else Except.ok { st with
    drivers := setMap st.drivers driverId
      { st.drivers driverId with
        location := { latitude := latitude, longitude := longitude } },
    events := st.events ++ [Event.DriverLocationUpdated driverId latitude longitude] }

/-- `setDriverAvailability` (guarded by `onlyDriver`; emits nothing). -/
def setDriverAvailability (caller driverId : Nat) (avail : Bool)
    (st : ContractState) : Except Err ContractState :=
  if (st.drivers driverId).driverAddress ≠ caller then
    Except.error Err.Unauthorized
  else Except.ok { st with
    drivers := setMap st.drivers driverId
      { st.drivers driverId with isAvailable := avail } }

/-- `requestRide`: payable, requires `msg.value > 0`, escrows the fare in
the contract, stores the new `Requested` ride, emits `RideRequested`. -/
def requestRide (caller value timestamp : Nat)
    (pickupLat pickupLng destLat destLng : Int) (st : ContractState) :
    Except Err ContractState :=
  if value = 0 then Except.error Err.InvalidAmount
  else
    let newId := st.rideCount + 1
    Except.ok { st with
      rideCount := newId,
      rideRequests := setMap st.rideRequests newId
        { id := newId, passenger := caller,
          pickupLocation := { latitude := pickupLat, longitude := pickupLng },
          destinationLocation := { latitude := destLat, longitude := destLng },
          fare := value, timestamp := timestamp,
          status := RideStatus.Requested, assignedDriverId := 0 },
      passengerRides := setMap st.passengerRides caller
        (st.passengerRides caller ++ [newId]),
      contractBalance := st.contractBalance + value,
      events := st.events ++ [Event.RideRequested newId caller pickupLat pickupLng] }

/-- `calculateSquaredDistance`: `|lat1-lat2|^2 + |lng1-lng2|^2` with the
checked int256/uint256 arithmetic of the source. -/
def calculateSquaredDistance (lat1 lng1 lat2 lng2 : Int) : Except Err Nat :=
  match subInt256 lat1 lat2 with
  | Except.error e => Except.error e
  | Except.ok latDiff =>
    match subInt256 lng1 lng2 with
    | Except.error e => Except.error e
    | Except.ok lngDiff =>
      match absUint256 latDiff with
      | Except.error e => Except.error e
      | Except.ok latDiffAbs =>
        match absUint256 lngDiff with
        | Except.error e => Except.error e
        | Except.ok lngDiffAbs =>
          match mulU256 latDiffAbs latDiffAbs with
          | Except.error e => Except.error e
          | Except.ok a =>
            match mulU256 lngDiffAbs lngDiffAbs with
            | Except.error e => Except.error e
            | Except.ok b => addU256 a b

/-- The scan loop of `findNearestDriver`: walks the given driver ids with
accumulator `(nearestDriverId, shortestDistance)`, updating on a strict
`<` for available drivers. -/
def scanDrivers (st : ContractState) (pickup : Location) :
    List Nat → Nat × Nat → Except Err (Nat × Nat)
  | [], acc => Except.ok acc
  | i :: rest, acc =>
    if (st.drivers i).isAvailable then
      match calculateSquaredDistance pickup.latitude pickup.longitude
        (st.drivers i).location.latitude (st.drivers i).location.longitude with
      | Except.error e => Except.error e
      | Except.ok d =>
        if d < acc.2 then scanDrivers st pickup rest (i, d)
        else scanDrivers st pickup rest acc
    else scanDrivers st pickup rest acc

/-- `findNearestDriver`: requires an existing `Requested` ride, scans
driver ids `1..driverCount`, returns the nearest available driver's id
(0 when none). -/
def findNearestDriver (st : ContractState) (rideId : Nat) : Except Err Nat :=
  let ride := st.rideRequests rideId
  if ride.id = 0 then Except.error Err.NotFound
  else if ride.status ≠ RideStatus.Requested then Except.error Err.InvalidState
  else
    match scanDrivers st ride.pickupLocation
      (List.range' 1 st.driverCount) (0, UINT_MAX) with
    | Except.error e => Except.error e
    | Except.ok acc => Except.ok acc.1

/-- `matchRide`: any caller; requires an existing `Requested` ride, a
nonzero nearest driver; records the assignment, moves to `Matched`,
appends the ride to the driver's ride list, emits `RideMatched`. -/
def matchRide (caller rideId : Nat) (st : ContractState) :
    Except Err ContractState :=
  let ride := st.rideRequests rideId
  if ride.id = 0 then Except.error Err.NotFound
  else if ride.status ≠ RideStatus.Requested then Except.error Err.InvalidState
  else
    match findNearestDriver st rideId with
    | Except.error e => Except.error e
    | Except.ok driverId =>
      if driverId = 0 then Except.error Err.NoAvailableDriver
      else Except.ok { st with
        rideRequests := setMap st.rideRequests rideId
          { ride with assignedDriverId := driverId, status := RideStatus.Matched },
        driverRides := setMap st.driverRides (st.drivers driverId).driverAddress
          (st.driverRides (st.drivers driverId).driverAddress ++ [rideId]),
        events := st.events ++ [Event.RideMatched rideId driverId ride.fare] }

/-- `startRide`: assigned driver only, `Matched → InProgress`, no event. -/
def startRide (caller rideId : Nat) (st : ContractState) :
    Except Err ContractState :=
  let ride := st.rideRequests rideId
  if ride.id = 0 then Except.error Err.NotFound
  else if ride.status ≠ RideStatus.Matched then Except.error Err.InvalidState
  else if (st.drivers ride.assignedDriverId).driverAddress ≠ caller then
    Except.error Err.Unauthorized
  else Except.ok { st with
    rideRequests := setMap st.rideRequests rideId
      { ride with status := RideStatus.InProgress } }

/-- `completeRide`: assigned driver only, requires `InProgress`; writes
`Completed`, computes `platformFee = fare * platformFeePercent / 10000`
and `driverPayment = fare - platformFee` (checked), transfers the
payment to the driver and the fee to the owner, emits `RideCompleted`. -/
def completeRide (caller : Nat) (accepts : Nat → Bool) (rideId : Nat)
    (st : ContractState) : Except Err ContractState :=
  let ride := st.rideRequests rideId
  if ride.id = 0 then Except.error Err.NotFound
  else if ride.status ≠ RideStatus.InProgress then Except.error Err.InvalidState
  else if (st.drivers ride.assignedDriverId).driverAddress ≠ caller then
    Except.error Err.Unauthorized
  else
    let st1 := { st with
      rideRequests := setMap st.rideRequests rideId
        { ride with status := RideStatus.Completed } }
    match mulU256 ride.fare st.platformFeePercent with
    | Except.error e => Except.error e
    | Except.ok p =>
      let platformFee := p / 10000
      match subU256 ride.fare platformFee with
      | Except.error e => Except.error e
      | Except.ok driverPayment =>
        match transfer accepts (st.drivers ride.assignedDriverId).driverAddress
          driverPayment st1 with
        | Except.error e => Except.error e
        | Except.ok st2 =>
          match transfer accepts st.owner platformFee st2 with
          | Except.error e => Except.error e
          | Except.ok st3 => Except.ok { st3 with
              events := st3.events ++ [Event.RideCompleted rideId ride.fare] }

/-- `cancelRide`: the `onlyPassenger` modifier runs first, then the
existence and `Requested`/`Matched` checks; writes `Cancelled` (leaving
`assignedDriverId` untouched), refunds the fare, emits `RideCancelled`. -/
def cancelRide (caller : Nat) (accepts : Nat → Bool) (rideId : Nat)
    (st : ContractState) : Except Err ContractState :=
  if (st.rideRequests rideId).passenger ≠ caller then
    Except.error Err.Unauthorized
  else
    let ride := st.rideRequests rideId
    if ride.id = 0 then Except.error Err.NotFound
    else if ride.status = RideStatus.Requested ∨ ride.status = RideStatus.Matched then
      let st1 := { st with
        rideRequests := setMap st.rideRequests rideId
          { ride with status := RideStatus.Cancelled } }
      match transfer accepts ride.passenger ride.fare st1 with
      | Except.error e => Except.error e
      | Except.ok st2 => Except.ok { st2 with
          events := st2.events ++ [Event.RideCancelled rideId] }
    else Except.error Err.InvalidState

/-- `updatePlatformFee`: owner only, fee capped at 1000 bp, no event. -/
def updatePlatformFee (caller newFeePercent : Nat) (st : ContractState) :
    Except Err ContractState :=
  if caller ≠ st.owner then Except.error Err.Unauthorized
  else if 1000 < newFeePercent then Except.error Err.InvalidAmount
  else Except.ok { st with platformFeePercent := newFeePercent }

/-- The body of the node-selection loop of `estimateShortestPathCost`,
over an explicit list of node ids: the accumulator `(minDistance, minIndex)`
is updated on `!visited[i] && distances[i] <= minDistance` (non-strict
comparison). -/
def selectFold (visited : Array Bool) (distances : Array Nat)
    (l : List Nat) (acc : Nat × Nat) : Nat × Nat :=
  l.foldl
    (fun acc i =>
      if visited.getD i false = false ∧ distances.getD i 0 ≤ acc.1 then
        (distances.getD i 0, i)
      else acc)
    acc

/-- The inner node-selection loop of `estimateShortestPathCost`: scans
`i = 1..n` starting from `(type(uint256).max, 0)`. -/
def selectMinLoop (visited : Array Bool) (distances : Array Nat) (n : Nat) :
    Nat × Nat :=
  selectFold visited distances (List.range' 1 n) (UINT_MAX, 0)

/-- One relaxation step of the Dijkstra loop for neighbour `i` of the
selected node `minIndex` (skips visited nodes and `minIndex` itself;
short-circuit guard before the checked addition, as in the source). -/
def relaxStep (st : ContractState) (minIndex : Nat) (visited : Array Bool)
    (acc : Array Nat) (i : Nat) : Except Err (Array Nat) :=
  if visited.getD i false = true ∨ i = minIndex then Except.ok acc
  else
    match calculateSquaredDistance
      (st.drivers minIndex).location.latitude
      (st.drivers minIndex).location.longitude
      (st.drivers i).location.latitude
      (st.drivers i).location.longitude with
    | Except.error e => Except.error e
    | Except.ok distance =>
      if acc.getD minIndex 0 ≠ UINT_MAX then
        match addU256 (acc.getD minIndex 0) distance with
        | Except.error e => Except.error e
        | Except.ok s =>
          if s < acc.getD i 0 then Except.ok (acc.setD i s) else Except.ok acc
      else Except.ok acc

/-- Relax every neighbour `1..n` of `minIndex`. -/
def relaxAll (st : ContractState) (n minIndex : Nat) (visited : Array Bool)
    (distances : Array Nat) : Except Err (Array Nat) :=
  (List.range' 1 n).foldlM (relaxStep st minIndex visited) distances

/-- The outer Dijkstra loop (`count = 1..driversToCheck`): select the
minimum unvisited node, break at index 0 or at the destination, otherwise
mark visited and relax. -/
def dijkstraLoop (st : ContractState) (destDriverId n : Nat) :
    Nat → Array Nat → Array Bool → Except Err (Array Nat)
  | 0, distances, _ => Except.ok distances
  | fuel + 1, distances, visited =>
    let sel := selectMinLoop visited distances n
    if sel.2 = 0 ∨ sel.2 = destDriverId then Except.ok distances
    else
      let visited1 := visited.setD sel.2 true
      match relaxAll st n sel.2 visited1 distances with
      | Except.error e => Except.error e
      | Except.ok distances1 => dijkstraLoop st destDriverId n fuel distances1 visited1

/-- Checked memory-array read (out of bounds reverts with a panic). -/
def arrGet (a : Array Nat) (i : Nat) : Except Err Nat :=
  if i < a.size then Except.ok (a.getD i 0) else Except.error Err.Panic

/-- Checked memory-array write (out of bounds reverts with a panic). -/
def arrSet (a : Array Nat) (i : Nat) (v : Nat) : Except Err (Array Nat) :=
  if i < a.size then Except.ok (a.setD i v) else Except.error Err.Panic

/-- `estimateShortestPathCost`: validates both driver ids, returns 0 when
source = destination, clamps the budget to `driverCount`, then runs the
simplified Dijkstra over arrays of size `driversToCheck + 1`. -/
def estimateShortestPathCost (st : ContractState)
    (sourceDriverId destDriverId maxDriversToCheck : Nat) : Except Err Nat :=
  if ¬ (0 < sourceDriverId ∧ sourceDriverId ≤ st.driverCount) then
    Except.error Err.InvalidDriver
  else if ¬ (0 < destDriverId ∧ destDriverId ≤ st.driverCount) then
    Except.error Err.InvalidDriver
  else if sourceDriverId = destDriverId then Except.ok 0
  else
    let driversToCheck :=
      if st.driverCount < maxDriversToCheck then st.driverCount
      else maxDriversToCheck
    let distances0 : Array Nat :=
      (List.range' 1 driversToCheck).foldl (fun a i => a.setD i UINT_MAX)
        (Array.mkArray (driversToCheck + 1) 0)
    let visited0 : Array Bool := Array.mkArray (driversToCheck + 1) false
    match arrSet distances0 sourceDriverId 0 with
    | Except.error e => Except.error e
    | Except.ok distances1 =>
      match dijkstraLoop st destDriverId driversToCheck driversToCheck
        distances1 visited0 with
      | Except.error e => Except.error e
      | Except.ok distancesF => arrGet distancesF destDriverId

/-- One contract invocation with its caller identity (and, for the two
value-transferring calls, the recipients' receive behaviour). -/
inductive Op where
  | registerDriver (caller : Nat) (name carModel licensePlate : String)
      (latitude longitude : Int)
  | updateDriverLocation (caller driverId : Nat) (latitude longitude : Int)
  | setDriverAvailability (caller driverId : Nat) (avail : Bool)
  | requestRide (caller value timestamp : Nat)
      (pickupLat pickupLng destLat destLng : Int)
  | matchRide (caller rideId : Nat)
  | startRide (caller rideId : Nat)
  | completeRide (caller : Nat) (accepts : Nat → Bool) (rideId : Nat)
  | cancelRide (caller : Nat) (accepts : Nat → Bool) (rideId : Nat)
  | updatePlatformFee (caller newFeePercent : Nat)

/-- Run one invocation. -/
def runOp (op : Op) (st : ContractState) : Except Err ContractState :=
  match op with
  | Op.registerDriver c n cm lp la lo => registerDriver c n cm lp la lo st
  | Op.updateDriverLocation c d la lo => updateDriverLocation c d la lo st
  | Op.setDriverAvailability c d a => setDriverAvailability c d a st
  | Op.requestRide c v t pa pb da db => requestRide c v t pa pb da db st
  | Op.matchRide c r => matchRide c r st
  | Op.startRide c r => startRide c r st
  | Op.completeRide c acc r => completeRide c acc r st
  | Op.cancelRide c acc r => cancelRide c acc r st
  | Op.updatePlatformFee c f => updatePlatformFee c f st

/-- Transaction semantics: a reverted call leaves the state untouched. -/
def applyOp (st : ContractState) (op : Op) : ContractState :=
  match runOp op st with
  | Except.ok st1 => st1
  | Except.error _ => st

/-- The state after a sequence of invocations. -/
def reach (ops : List Op) (st0 : ContractState) : ContractState :=
  ops.foldl applyOp st0

/-! ## Concrete scenarios used in counterexamples and witnesses -/

/-- A recipient oracle under which every plain transfer is accepted
(externally owned accounts). -/
def acceptAll : Nat → Bool := fun _ => true

/-- Driver 1 registered by account 1 at the origin; ride 1 requested by
account 2 with fare 100 and pickup at the origin; matched (caller 3);
then cancelled by the passenger. -/
def cancelAfterMatchOps : List Op :=
  [Op.registerDriver 1 "" "" "" 0 0,
   Op.requestRide 2 100 0 0 0 0 0,
   Op.matchRide 3 1,
   Op.cancelRide 2 acceptAll 1]

/-- Two drivers registered (accounts 1 and 2), the second 100 units east. -/
def twoDriverSt : ContractState :=
  reach [Op.registerDriver 1 "" "" "" 0 0,
         Op.registerDriver 2 "" "" "" 100 0] (initState 9)

/-- A concrete visited array for the node-selection counterexample. -/
def tieVisited : Array Bool := #[false, false, false]

/-- Concrete tentative distances with a tie between nodes 1 and 2. -/
def tieDistances : Array Nat := #[0, 7, 7]

/-- The per-ride driver-assignment invariant that actually holds on the
code: a ride in `Matched`, `InProgress` or `Completed` carries a nonzero
`assignedDriverId`, and a ride in `Requested` carries zero.  (A `Cancelled`
ride may carry either: cancelling a matched ride keeps the assignment.) -/
def RideInv (r : RideRequest) : Prop :=
  ((r.status = RideStatus.Matched ∨ r.status = RideStatus.InProgress ∨
    r.status = RideStatus.Completed) → r.assignedDriverId ≠ 0) ∧
  (r.status = RideStatus.Requested → r.assignedDriverId = 0)

/-- Every ride record of the state satisfies `RideInv`. -/
def StInv (st : ContractState) : Prop := ∀ rid, RideInv (st.rideRequests rid)

/-- One driver (account 1 at the origin) and one ride (requester 2,
fare 1000, pickup 100 units east). -/
def preMatchSt : ContractState :=
  reach [Op.registerDriver 1 "" "" "" 0 0,
         Op.requestRide 2 1000 0 100 (-100) 0 0] (initState 9)

/-- `preMatchSt` after matching (any caller) and the driver starting. -/
def inProgressSt : ContractState :=
  reach [Op.matchRide 3 1, Op.startRide 1 1] preMatchSt

/-- The state after the assigned driver completes ride 1. -/
def completedSt : ContractState :=
  (completeRide 1 acceptAll 1 inProgressSt).toOption.getD (initState 0)

/-- The state after the passenger cancels the still-`Requested` ride 1. -/
def cancelledSt : ContractState :=
  (cancelRide 2 acceptAll 1 preMatchSt).toOption.getD (initState 0)

/-- Number of events each invocation emits on success (from the source:
`setDriverAvailability`, `startRide` and `updatePlatformFee` emit none). -/
def opEmitCount : Op → Nat
  | Op.registerDriver .. => 1
  | Op.updateDriverLocation .. => 1
  | Op.setDriverAvailability .. => 0
  | Op.requestRide .. => 1
  | Op.matchRide .. => 1
  | Op.startRide .. => 0
  | Op.completeRide .. => 1
  | Op.cancelRide .. => 1
  | Op.updatePlatformFee .. => 0

/-- `twoDriverSt` after driver 1 flips itself unavailable. -/
def availFlipSt : ContractState :=
  applyOp twoDriverSt (Op.setDriverAvailability 1 1 false)

/-- A fresh deployment after one driver registration. -/
def regSt : ContractState :=
  applyOp (initState 9) (Op.registerDriver 1 "" "" "" 0 0)

/-- One driver registered and made unavailable, one ride requested. -/
def noDriverSt : ContractState :=
  reach [Op.registerDriver 1 "" "" "" 0 0,
         Op.setDriverAvailability 1 1 false,
         Op.requestRide 2 50 0 0 0 0 0] (initState 9)

/-- `preMatchSt` after a successful match. -/
def matchedSt : ContractState :=
  (matchRide 3 1 preMatchSt).toOption.getD (initState 0)

/-- The mathematical value of `calculateSquaredDistance` when no checked
operation reverts: `|lat1-lat2|^2 + |lng1-lng2|^2`. -/
def sqDistVal (l1 l2 : Location) : Nat :=
  (l1.latitude - l2.latitude).natAbs * (l1.latitude - l2.latitude).natAbs +
  (l1.longitude - l2.longitude).natAbs * (l1.longitude - l2.longitude).natAbs

/-- Coordinates small enough that none of the checked int256/uint256
operations of the distance computation can revert (any real scaled
latitude/longitude, bounded by 1.8e8, is far below `2^126`). -/
def CoordOK (l : Location) : Prop :=
  l.latitude.natAbs ≤ 2 ^ 126 ∧ l.longitude.natAbs ≤ 2 ^ 126

/-- Driver 1 at `(10, 0)`, driver 2 at `(5, 0)`, ride 1 with pickup at the
origin (the nearest-driver scenario of the spec). -/
def nearestDemoSt : ContractState :=
  reach [Op.registerDriver 1 "" "" "" 10 0,
         Op.registerDriver 2 "" "" "" 5 0,
         Op.requestRide 3 1000 0 0 0 7 7] (initState 9)

/-! ## Theorems -/

/-- Unfold one step of the node-selection fold. -/
theorem selectFold_cons (visited : Array Bool) (distances : Array Nat)
    (i : Nat) (l : List Nat) (acc : Nat × Nat) :
    selectFold visited distances (i :: l) acc =
      selectFold visited distances l
        (if visited.getD i false = false ∧ distances.getD i 0 ≤ acc.1 then
          (distances.getD i 0, i) else acc) := rfl

/-- Invariants of the node-selection fold: the result is the accumulator or
an unvisited scanned node holding the running minimum; the minimum never
increases; it bounds every unvisited scanned distance; on equality the
scanned node id is at most the selected one (last-tied-wins); and any
unvisited scanned node at distance within the accumulator forces a scanned
selection. -/
theorem selectFold_props (visited : Array Bool) (distances : Array Nat)
    (l : List Nat) : ∀ (acc r : Nat × Nat), l.Pairwise (· < ·) →
    selectFold visited distances l acc = r →
    (r = acc ∨ (r.2 ∈ l ∧ visited.getD r.2 false = false ∧
                distances.getD r.2 0 = r.1)) ∧
    r.1 ≤ acc.1 ∧
    (∀ k ∈ l, visited.getD k false = false → r.1 ≤ distances.getD k 0) ∧
    (∀ k ∈ l, visited.getD k false = false → distances.getD k 0 = r.1 → k ≤ r.2) ∧
    (∀ j ∈ l, visited.getD j false = false → distances.getD j 0 ≤ acc.1 →
       (r.2 ∈ l ∧ visited.getD r.2 false = false ∧ distances.getD r.2 0 = r.1)) := by
  induction l with
  | nil =>
    intro acc r _ hr
    simp only [selectFold, List.foldl_nil] at hr
    subst hr
    simp
  | cons i rest ih =>
    intro acc r hl hr
    have hl' : rest.Pairwise (· < ·) := hl.of_cons
    have hlt : ∀ j ∈ rest, i < j := fun j hj => List.rel_of_pairwise_cons hl hj
    rw [selectFold_cons] at hr
    by_cases hcond : visited.getD i false = false ∧ distances.getD i 0 ≤ acc.1
    · rw [if_pos hcond] at hr
      obtain ⟨h1, h2, h3, h4, h6⟩ := ih (distances.getD i 0, i) r hl' hr
      refine ⟨?_, ?_, ?_, ?_, ?_⟩
      · rcases h1 with h1 | h1
        · exact Or.inr ⟨by simp [h1], by simpa [h1] using hcond.1, by simp [h1]⟩
        · exact Or.inr ⟨List.mem_cons_of_mem i h1.1, h1.2.1, h1.2.2⟩
      · exact le_trans h2 hcond.2
      · intro k hk hkv
        rcases List.mem_cons.mp hk with hk | hk
        · subst hk; exact h2
        · exact h3 k hk hkv
      · intro k hk hkv hkd
        rcases List.mem_cons.mp hk with hk | hk
        · subst hk
          rcases h1 with h1 | h1
          · simp [h1]
          · exact le_of_lt (hlt r.2 h1.1)
        · exact h4 k hk hkv hkd
      · intro j hj hjv hjd
        rcases h1 with h1 | h1
        · exact ⟨by simp [h1], by simpa [h1] using hcond.1, by simp [h1]⟩
        · exact ⟨List.mem_cons_of_mem i h1.1, h1.2.1, h1.2.2⟩
    · rw [if_neg hcond] at hr
      obtain ⟨h1, h2, h3, h4, h6⟩ := ih acc r hl' hr
      refine ⟨?_, ?_, ?_, ?_, ?_⟩
      · rcases h1 with h1 | h1
        · exact Or.inl h1
        · exact Or.inr ⟨List.mem_cons_of_mem i h1.1, h1.2.1, h1.2.2⟩
      · exact h2
      · intro k hk hkv
        rcases List.mem_cons.mp hk with hk | hk
        · subst hk
          have : ¬ distances.getD k 0 ≤ acc.1 := by
            intro hle; exact hcond ⟨hkv, hle⟩
          omega
        · exact h3 k hk hkv
      · intro k hk hkv hkd
        rcases List.mem_cons.mp hk with hk | hk
        · subst hk
          have : ¬ distances.getD k 0 ≤ acc.1 := by
            intro hle; exact hcond ⟨hkv, hle⟩
          omega
        · exact h4 k hk hkv hkd
      · intro j hj hjv hjd
        rcases List.mem_cons.mp hj with hj | hj
        · subst hj; exact absurd ⟨hjv, hjd⟩ hcond
        · rcases h6 j hj hjv hjd with ⟨ha, hb, hc⟩
          exact ⟨List.mem_cons_of_mem i ha, hb, hc⟩

/-- C7 (amended): whenever some unvisited node is in range (with a
representable distance), the node-selection step of
`estimateShortestPathCost` picks an unvisited in-range node attaining the
minimum tentative distance, and on exact ties the node with the HIGHEST id
is the one selected — the non-strict `<=` keeps the last tied node of the
ascending scan, not the lowest id. -/
theorem selectMin_ties_highest (visited : Array Bool) (distances : Array Nat)
    (n j : Nat) (hj1 : 1 ≤ j) (hj2 : j ≤ n)
    (hjv : visited.getD j false = false)
    (hjb : distances.getD j 0 ≤ UINT_MAX) :
    1 ≤ (selectMinLoop visited distances n).2 ∧
    (selectMinLoop visited distances n).2 ≤ n ∧
    visited.getD (selectMinLoop visited distances n).2 false = false ∧
    distances.getD (selectMinLoop visited distances n).2 0 =
      (selectMinLoop visited distances n).1 ∧
    (∀ k, 1 ≤ k → k ≤ n → visited.getD k false = false →
       (selectMinLoop visited distances n).1 ≤ distances.getD k 0 ∧
       (distances.getD k 0 = (selectMinLoop visited distances n).1 →
         k ≤ (selectMinLoop visited distances n).2)) := by
  have hpw : (List.range' 1 n).Pairwise (· < ·) := List.pairwise_lt_range' 1 n
  obtain ⟨h1, h2, h3, h4, h6⟩ := selectFold_props visited distances
    (List.range' 1 n) (UINT_MAX, 0) (selectMinLoop visited distances n) hpw rfl
  have hjmem : j ∈ List.range' 1 n := by
    rw [List.mem_range'_1]; omega
  obtain ⟨hmem, hv, hd⟩ := h6 j hjmem hjv hjb
  rw [List.mem_range'_1] at hmem
  refine ⟨hmem.1, by omega, hv, hd, ?_⟩
  intro k hk1 hk2 hkv
  have hkmem : k ∈ List.range' 1 n := by rw [List.mem_range'_1]; omega
  exact ⟨h3 k hkmem hkv, fun he => h4 k hkmem hkv he⟩

/-- Witness for `selectMin_ties_highest` at the concrete tied input. -/
theorem selectMin_ties_highest_witness :
    1 ≤ (selectMinLoop tieVisited tieDistances 2).2 ∧
    (selectMinLoop tieVisited tieDistances 2).2 ≤ 2 ∧
    tieVisited.getD (selectMinLoop tieVisited tieDistances 2).2 false = false ∧
    tieDistances.getD (selectMinLoop tieVisited tieDistances 2).2 0 =
      (selectMinLoop tieVisited tieDistances 2).1 ∧
    (∀ k, 1 ≤ k → k ≤ 2 → tieVisited.getD k false = false →
       (selectMinLoop tieVisited tieDistances 2).1 ≤ tieDistances.getD k 0 ∧
       (tieDistances.getD k 0 = (selectMinLoop tieVisited tieDistances 2).1 →
         k ≤ (selectMinLoop tieVisited tieDistances 2).2)) :=
  selectMin_ties_highest tieVisited tieDistances 2 1 (by decide) (by decide)
    (by decide) (by decide)

/-- C2 counterexample: after register, request, match, cancel, ride 1 has
`assignedDriverId = 1 ≠ 0` while its status is `Cancelled`, which is not in
`{Matched, InProgress, Completed}` — the claimed biconditional fails at a
reachable observation point. -/
theorem cancel_after_match_breaks_iff :
    ¬ (((reach cancelAfterMatchOps (initState 9)).rideRequests 1).assignedDriverId ≠ 0 ↔
       (((reach cancelAfterMatchOps (initState 9)).rideRequests 1).status = RideStatus.Matched ∨
        ((reach cancelAfterMatchOps (initState 9)).rideRequests 1).status = RideStatus.InProgress ∨
        ((reach cancelAfterMatchOps (initState 9)).rideRequests 1).status = RideStatus.Completed)) := by
  decide

/-- C6 (evaluation at the failing input): with two registered drivers,
`estimateShortestPathCost 1 2 0` aborts with an array out-of-bounds panic
(the source writes `distances[sourceDriverId]` into an array of length
`driversToCheck + 1 = 1`) instead of returning the no-path sentinel; with
source = destination it returns 0 for any budget, and with budget 2 the
query between the two drivers yields their squared distance 10000. -/
theorem estimate_zero_budget_panics :
    estimateShortestPathCost twoDriverSt 1 2 0 = Except.error Err.Panic ∧
    estimateShortestPathCost twoDriverSt 1 1 0 = Except.ok 0 ∧
    estimateShortestPathCost twoDriverSt 2 2 0 = Except.ok 0 ∧
    estimateShortestPathCost twoDriverSt 1 1 7 = Except.ok 0 ∧
    estimateShortestPathCost twoDriverSt 1 2 2 = Except.ok 10000 := by
  refine ⟨?_, ?_, ?_, ?_, ?_⟩ <;> rfl

/-- C7 counterexample: in the node-selection step, with nodes 1 and 2 both
unvisited and sharing the smallest tentative distance 7, the loop selects
node 2, not the lowest id 1 — the non-strict `<=` keeps the last tied
node of the ascending scan. -/
theorem selectMin_picks_highest_on_tie :
    (#[0, 7, 7] : Array Nat).getD 1 0 = (#[0, 7, 7] : Array Nat).getD 2 0 ∧
    (#[false, false, false] : Array Bool).getD 1 false = false ∧
    (#[false, false, false] : Array Bool).getD 2 false = false ∧
    selectMinLoop #[false, false, false] #[0, 7, 7] 2 = (7, 2) ∧
    (selectMinLoop #[false, false, false] #[0, 7, 7] 2).2 ≠ 1 := by
  decide


/-! ### Inversion lemmas for successful invocations -/

theorem mulU256_ok (a b p : Nat) (h : mulU256 a b = Except.ok p) :
    p = a * b ∧ a * b ≤ UINT_MAX := by
  unfold mulU256 at h
  split at h
  · simp at h
  · cases h; omega

theorem subU256_ok (a b c : Nat) (h : subU256 a b = Except.ok c) :
    b ≤ a ∧ c = a - b := by
  unfold subU256 at h
  split at h
  · simp at h
  · cases h; omega

theorem transfer_ok (accepts : Nat → Bool) (toAddr amount : Nat)
    (st st' : ContractState)
    (h : transfer accepts toAddr amount st = Except.ok st') :
    amount ≤ st.contractBalance ∧ accepts toAddr = true ∧
    st' = { st with
      contractBalance := st.contractBalance - amount,
      balances := setMap st.balances toAddr (st.balances toAddr + amount) } := by
  unfold transfer at h
  split at h
  · simp at h
  · split at h
    · simp at h
    · rename_i h1 h2
      cases h
      refine ⟨by omega, by revert h2; cases accepts toAddr <;> simp, rfl⟩

theorem completeRide_ok (caller : Nat) (accepts : Nat → Bool) (rideId : Nat)
    (st st' : ContractState)
    (h : completeRide caller accepts rideId st = Except.ok st') :
    (st.rideRequests rideId).id ≠ 0 ∧
    (st.rideRequests rideId).status = RideStatus.InProgress ∧
    (st.drivers (st.rideRequests rideId).assignedDriverId).driverAddress = caller ∧
    (st.rideRequests rideId).fare * st.platformFeePercent ≤ UINT_MAX ∧
    (st.rideRequests rideId).fare * st.platformFeePercent / 10000 ≤ (st.rideRequests rideId).fare ∧
    (st.rideRequests rideId).fare - (st.rideRequests rideId).fare * st.platformFeePercent / 10000 ≤ st.contractBalance ∧
    (st.rideRequests rideId).fare * st.platformFeePercent / 10000 ≤
      st.contractBalance - ((st.rideRequests rideId).fare - (st.rideRequests rideId).fare * st.platformFeePercent / 10000) ∧
    st' = { st with
      rideRequests := setMap st.rideRequests rideId
        { st.rideRequests rideId with status := RideStatus.Completed },
      contractBalance := st.contractBalance -
        ((st.rideRequests rideId).fare - (st.rideRequests rideId).fare * st.platformFeePercent / 10000) -
        (st.rideRequests rideId).fare * st.platformFeePercent / 10000,
      balances := setMap
        (setMap st.balances (st.drivers (st.rideRequests rideId).assignedDriverId).driverAddress
          (st.balances ((st.drivers (st.rideRequests rideId).assignedDriverId).driverAddress) +
           ((st.rideRequests rideId).fare - (st.rideRequests rideId).fare * st.platformFeePercent / 10000)))
        st.owner
        ((setMap st.balances (st.drivers (st.rideRequests rideId).assignedDriverId).driverAddress
          (st.balances ((st.drivers (st.rideRequests rideId).assignedDriverId).driverAddress) +
           ((st.rideRequests rideId).fare - (st.rideRequests rideId).fare * st.platformFeePercent / 10000))) st.owner +
         (st.rideRequests rideId).fare * st.platformFeePercent / 10000),
      events := st.events ++ [Event.RideCompleted rideId (st.rideRequests rideId).fare] } := by
  simp only [completeRide] at h
  split at h
  · simp at h
  · split at h
    · simp at h
    · split at h
      · simp at h
      · rename_i hid hstat hauth
        rw [Ne, not_not] at hstat
        rw [not_ne_iff] at hauth
        split at h
        · simp at h
        · rename_i p hp
          obtain ⟨hpe, hpb⟩ := mulU256_ok _ _ _ hp
          split at h
          · simp at h
          · rename_i dp hdp
            obtain ⟨hdple, hdpe⟩ := subU256_ok _ _ _ hdp
            split at h
            · simp at h
            · rename_i st2 ht2
              obtain ⟨hb2, ha2, he2⟩ := transfer_ok _ _ _ _ _ ht2
              split at h
              · simp at h
              · rename_i st3 ht3
                obtain ⟨hb3, ha3, he3⟩ := transfer_ok _ _ _ _ _ ht3
                cases h
                subst he2 he3 hpe hdpe
                refine ⟨hid, hstat, hauth, by omega, by omega, by simpa using hb2, by simpa using hb3, ?_⟩
                rfl

theorem registerDriver_eq (caller : Nat) (name carModel licensePlate : String)
    (latitude longitude : Int) (st : ContractState) :
    registerDriver caller name carModel licensePlate latitude longitude st =
      Except.ok { st with
        driverCount := st.driverCount + 1,
        drivers := setMap st.drivers (st.driverCount + 1)
          { id := st.driverCount + 1, driverAddress := caller, name := name,
            rating := 4500, carModel := carModel, licensePlate := licensePlate,
            location := { latitude := latitude, longitude := longitude },
            isAvailable := true },
        events := st.events ++ [Event.DriverRegistered (st.driverCount + 1) caller name] } := rfl

theorem updateDriverLocation_ok (caller driverId : Nat) (latitude longitude : Int)
    (st st' : ContractState)
    (h : updateDriverLocation caller driverId latitude longitude st = Except.ok st') :
    (st.drivers driverId).driverAddress = caller ∧
    st' = { st with
      drivers := setMap st.drivers driverId
        { st.drivers driverId with
          location := { latitude := latitude, longitude := longitude } },
      events := st.events ++ [Event.DriverLocationUpdated driverId latitude longitude] } := by
  unfold updateDriverLocation at h
  split at h
  · simp at h
  · rename_i ha
    rw [not_ne_iff] at ha
    cases h
    exact ⟨ha, rfl⟩

theorem setDriverAvailability_ok (caller driverId : Nat) (avail : Bool)
    (st st' : ContractState)
    (h : setDriverAvailability caller driverId avail st = Except.ok st') :
    (st.drivers driverId).driverAddress = caller ∧
    st' = { st with
      drivers := setMap st.drivers driverId
        { st.drivers driverId with isAvailable := avail } } := by
  unfold setDriverAvailability at h
  split at h
  · simp at h
  · rename_i ha
    rw [not_ne_iff] at ha
    cases h
    exact ⟨ha, rfl⟩

theorem requestRide_ok (caller value timestamp : Nat)
    (pickupLat pickupLng destLat destLng : Int) (st st' : ContractState)
    (h : requestRide caller value timestamp pickupLat pickupLng destLat destLng st = Except.ok st') :
    value ≠ 0 ∧
    st' = { st with
      rideCount := st.rideCount + 1,
      rideRequests := setMap st.rideRequests (st.rideCount + 1)
        { id := st.rideCount + 1, passenger := caller,
          pickupLocation := { latitude := pickupLat, longitude := pickupLng },
          destinationLocation := { latitude := destLat, longitude := destLng },
          fare := value, timestamp := timestamp,
          status := RideStatus.Requested, assignedDriverId := 0 },
      passengerRides := setMap st.passengerRides caller
        (st.passengerRides caller ++ [st.rideCount + 1]),
      contractBalance := st.contractBalance + value,
      events := st.events ++ [Event.RideRequested (st.rideCount + 1) caller pickupLat pickupLng] } := by
  simp only [requestRide] at h
  split at h
  · simp at h
  · rename_i hv
    cases h
    exact ⟨hv, rfl⟩

theorem matchRide_ok (caller rideId : Nat) (st st' : ContractState)
    (h : matchRide caller rideId st = Except.ok st') :
    ∃ driverId, driverId ≠ 0 ∧
      findNearestDriver st rideId = Except.ok driverId ∧
      (st.rideRequests rideId).id ≠ 0 ∧
      (st.rideRequests rideId).status = RideStatus.Requested ∧
      st' = { st with
        rideRequests := setMap st.rideRequests rideId
          { st.rideRequests rideId with
            assignedDriverId := driverId, status := RideStatus.Matched },
        driverRides := setMap st.driverRides (st.drivers driverId).driverAddress
          (st.driverRides (st.drivers driverId).driverAddress ++ [rideId]),
        events := st.events ++
          [Event.RideMatched rideId driverId (st.rideRequests rideId).fare] } := by
  simp only [matchRide] at h
  split at h
  · simp at h
  · split at h
    · simp at h
    · rename_i hid hstat
      rw [Ne, not_not] at hstat
      split at h
      · simp at h
      · rename_i driverId hfind
        split at h
        · simp at h
        · rename_i hdz
          cases h
          exact ⟨driverId, hdz, hfind, hid, hstat, rfl⟩

theorem startRide_ok (caller rideId : Nat) (st st' : ContractState)
    (h : startRide caller rideId st = Except.ok st') :
    (st.rideRequests rideId).id ≠ 0 ∧
    (st.rideRequests rideId).status = RideStatus.Matched ∧
    (st.drivers (st.rideRequests rideId).assignedDriverId).driverAddress = caller ∧
    st' = { st with
      rideRequests := setMap st.rideRequests rideId
        { st.rideRequests rideId with status := RideStatus.InProgress } } := by
  simp only [startRide] at h
  split at h
  · simp at h
  · split at h
    · simp at h
    · split at h
      · simp at h
      · rename_i hid hstat hauth
        rw [Ne, not_not] at hstat
        rw [not_ne_iff] at hauth
        cases h
        exact ⟨hid, hstat, hauth, rfl⟩

theorem cancelRide_ok (caller : Nat) (accepts : Nat → Bool) (rideId : Nat)
    (st st' : ContractState)
    (h : cancelRide caller accepts rideId st = Except.ok st') :
    (st.rideRequests rideId).passenger = caller ∧
    (st.rideRequests rideId).id ≠ 0 ∧
    ((st.rideRequests rideId).status = RideStatus.Requested ∨
     (st.rideRequests rideId).status = RideStatus.Matched) ∧
    (st.rideRequests rideId).fare ≤ st.contractBalance ∧
    accepts ((st.rideRequests rideId).passenger) = true ∧
    st' = { st with
      rideRequests := setMap st.rideRequests rideId
        { st.rideRequests rideId with status := RideStatus.Cancelled },
      contractBalance := st.contractBalance - (st.rideRequests rideId).fare,
      balances := setMap st.balances ((st.rideRequests rideId).passenger)
        (st.balances ((st.rideRequests rideId).passenger) + (st.rideRequests rideId).fare),
      events := st.events ++ [Event.RideCancelled rideId] } := by
  simp only [cancelRide] at h
  split at h
  · simp at h
  · rename_i hpass
    rw [not_ne_iff] at hpass
    split at h
    · simp at h
    · split at h
      · rename_i hid hstat
        split at h
        · simp at h
        · rename_i st2 ht2
          obtain ⟨hb2, ha2, he2⟩ := transfer_ok _ _ _ _ _ ht2
          cases h
          subst he2
          exact ⟨hpass, hid, hstat, by simpa using hb2, ha2, rfl⟩
      · simp at h

theorem updatePlatformFee_ok (caller newFeePercent : Nat) (st st' : ContractState)
    (h : updatePlatformFee caller newFeePercent st = Except.ok st') :
    caller = st.owner ∧ newFeePercent ≤ 1000 ∧
    st' = { st with platformFeePercent := newFeePercent } := by
  unfold updatePlatformFee at h
  split at h
  · simp at h
  · split at h
    · simp at h
    · rename_i h1 h2
      rw [not_ne_iff] at h1
      cases h
      exact ⟨h1, by omega, rfl⟩


/-! ### The driver-assignment invariant over all reachable states -/

theorem applyOp_StInv (st : ContractState) (op : Op) (h : StInv st) :
    StInv (applyOp st op) := by
  unfold applyOp
  cases hro : runOp op st with
  | error e => exact h
  | ok st' =>
    cases op with
    | registerDriver c n cm lp la lo =>
      simp only [runOp] at hro
      rw [registerDriver_eq] at hro
      cases hro
      exact fun rid => h rid
    | updateDriverLocation c d la lo =>
      simp only [runOp] at hro
      obtain ⟨-, rfl⟩ := updateDriverLocation_ok _ _ _ _ _ _ hro
      exact fun rid => h rid
    | setDriverAvailability c d a =>
      simp only [runOp] at hro
      obtain ⟨-, rfl⟩ := setDriverAvailability_ok _ _ _ _ _ hro
      exact fun rid => h rid
    | requestRide c v t pa pb da db =>
      simp only [runOp] at hro
      obtain ⟨-, rfl⟩ := requestRide_ok _ _ _ _ _ _ _ _ _ hro
      intro rid
      simp only [setMap]
      by_cases he : rid = st.rideCount + 1
      · rw [if_pos he]
        exact ⟨by simp, by simp⟩
      · rw [if_neg he]
        exact h rid
    | matchRide c r =>
      simp only [runOp] at hro
      obtain ⟨driverId, hdz, -, -, -, rfl⟩ := matchRide_ok _ _ _ _ hro
      intro rid
      simp only [setMap]
      by_cases he : rid = r
      · rw [if_pos he]
        exact ⟨fun _ => hdz, by simp⟩
      · rw [if_neg he]
        exact h rid
    | startRide c r =>
      simp only [runOp] at hro
      obtain ⟨-, hstat, -, rfl⟩ := startRide_ok _ _ _ _ hro
      intro rid
      simp only [setMap]
      by_cases he : rid = r
      · rw [if_pos he]
        refine ⟨fun _ => ?_, by simp⟩
        exact (h r).1 (Or.inl hstat)
      · rw [if_neg he]
        exact h rid
    | completeRide c acc r =>
      simp only [runOp] at hro
      obtain ⟨-, hstat, -, -, -, -, -, rfl⟩ := completeRide_ok _ _ _ _ _ hro
      intro rid
      simp only [setMap]
      by_cases he : rid = r
      · rw [if_pos he]
        refine ⟨fun _ => ?_, by simp⟩
        exact (h r).1 (Or.inr (Or.inl hstat))
      · rw [if_neg he]
        exact h rid
    | cancelRide c acc r =>
      simp only [runOp] at hro
      obtain ⟨-, -, -, -, -, rfl⟩ := cancelRide_ok _ _ _ _ _ hro
      intro rid
      simp only [setMap]
      by_cases he : rid = r
      · rw [if_pos he]
        exact ⟨by simp, by simp⟩
      · rw [if_neg he]
        exact h rid
    | updatePlatformFee c f =>
      simp only [runOp] at hro
      obtain ⟨-, -, rfl⟩ := updatePlatformFee_ok _ _ _ _ hro
      exact fun rid => h rid

theorem reach_StInv (ops : List Op) : ∀ st : ContractState, StInv st →
    StInv (reach ops st) := by
  induction ops with
  | nil => exact fun st h => h
  | cons op rest ih =>
    intro st h
    exact ih (applyOp st op) (applyOp_StInv st op h)

/-- C2 (amended): at every observation point reachable by any sequence of
operations from the freshly deployed contract, every ride record satisfies:
status in `{Matched, InProgress, Completed}` implies `assignedDriverId ≠ 0`,
and status `Requested` implies `assignedDriverId = 0`.  The claimed full
biconditional fails only through `Cancelled`: cancelling a matched ride
keeps a nonzero `assignedDriverId`. -/
theorem ride_assignment_invariant (ops : List Op) (deployer rid : Nat) :
    RideInv ((reach ops (initState deployer)).rideRequests rid) := by
  refine reach_StInv ops (initState deployer) ?_ rid
  intro r
  exact ⟨by simp [initState, emptyRide], by simp [initState, emptyRide]⟩


/-! ### Settlement and cancellation -/

/-- C1: on every successful `completeRide`, with the fee within the 1000
basis-point cap, the split is `platformFee = fare * feeBasisPoints / 10000`
(floor) and `driverPayment = fare - platformFee`; the two parts sum back to
the fare exactly, the contract pays out exactly the fare, and (when driver
and owner differ) each party is credited exactly its part. -/
theorem completeRide_fee_split (st : ContractState) (caller : Nat)
    (accepts : Nat → Bool) (rideId : Nat) (st' : ContractState)
    (hfee : st.platformFeePercent ≤ 1000)
    (h : completeRide caller accepts rideId st = Except.ok st') :
    (st.rideRequests rideId).fare * st.platformFeePercent / 10000 +
      ((st.rideRequests rideId).fare -
       (st.rideRequests rideId).fare * st.platformFeePercent / 10000) =
      (st.rideRequests rideId).fare ∧
    st'.contractBalance + (st.rideRequests rideId).fare = st.contractBalance ∧
    ((st.drivers (st.rideRequests rideId).assignedDriverId).driverAddress ≠ st.owner →
      st'.balances ((st.drivers (st.rideRequests rideId).assignedDriverId).driverAddress) =
        st.balances ((st.drivers (st.rideRequests rideId).assignedDriverId).driverAddress) +
        ((st.rideRequests rideId).fare -
         (st.rideRequests rideId).fare * st.platformFeePercent / 10000) ∧
      st'.balances st.owner = st.balances st.owner +
        (st.rideRequests rideId).fare * st.platformFeePercent / 10000) := by
  obtain ⟨-, -, -, -, hpf, hb2, hb3, rfl⟩ := completeRide_ok _ _ _ _ _ h
  refine ⟨by omega, by simp only []; omega, ?_⟩
  intro hne
  constructor <;> simp [setMap, hne, Ne.symm hne]

theorem completeRide_fee_split_witness :
    inProgressSt.platformFeePercent ≤ 1000 ∧
    completeRide 1 acceptAll 1 inProgressSt = Except.ok completedSt ∧
    ((inProgressSt.rideRequests 1).fare * inProgressSt.platformFeePercent / 10000 +
      ((inProgressSt.rideRequests 1).fare -
       (inProgressSt.rideRequests 1).fare * inProgressSt.platformFeePercent / 10000) =
      (inProgressSt.rideRequests 1).fare ∧
    completedSt.contractBalance + (inProgressSt.rideRequests 1).fare =
      inProgressSt.contractBalance ∧
    ((inProgressSt.drivers (inProgressSt.rideRequests 1).assignedDriverId).driverAddress ≠
        inProgressSt.owner →
      completedSt.balances
          ((inProgressSt.drivers (inProgressSt.rideRequests 1).assignedDriverId).driverAddress) =
        inProgressSt.balances
          ((inProgressSt.drivers (inProgressSt.rideRequests 1).assignedDriverId).driverAddress) +
        ((inProgressSt.rideRequests 1).fare -
         (inProgressSt.rideRequests 1).fare * inProgressSt.platformFeePercent / 10000) ∧
      completedSt.balances inProgressSt.owner = inProgressSt.balances inProgressSt.owner +
        (inProgressSt.rideRequests 1).fare * inProgressSt.platformFeePercent / 10000)) :=
  ⟨by decide, rfl, completeRide_fee_split inProgressSt 1 acceptAll 1 completedSt (by decide) rfl⟩




/-- C4: `completeRide` is atomic.  Every invocation either fails, leaving
the observable state exactly unchanged (although the code writes the
`Completed` status before the transfers, a revert discards it), or succeeds
with the status change, the driver payment and the platform-fee transfer
all applied together, conserving the fare exactly. -/
theorem completeRide_atomicity (st : ContractState) (caller : Nat)
    (accepts : Nat → Bool) (rideId : Nat) :
    (∃ e, completeRide caller accepts rideId st = Except.error e ∧
          applyOp st (Op.completeRide caller accepts rideId) = st) ∨
    (∃ st', completeRide caller accepts rideId st = Except.ok st' ∧
          applyOp st (Op.completeRide caller accepts rideId) = st' ∧
          (st'.rideRequests rideId).status = RideStatus.Completed ∧
          (st.rideRequests rideId).fare * st.platformFeePercent / 10000 +
            ((st.rideRequests rideId).fare -
             (st.rideRequests rideId).fare * st.platformFeePercent / 10000) =
            (st.rideRequests rideId).fare ∧
          st'.contractBalance + (st.rideRequests rideId).fare = st.contractBalance ∧
          st'.balances = setMap
            (setMap st.balances
              ((st.drivers (st.rideRequests rideId).assignedDriverId).driverAddress)
              (st.balances ((st.drivers (st.rideRequests rideId).assignedDriverId).driverAddress) +
               ((st.rideRequests rideId).fare -
                (st.rideRequests rideId).fare * st.platformFeePercent / 10000)))
            st.owner
            ((setMap st.balances
              ((st.drivers (st.rideRequests rideId).assignedDriverId).driverAddress)
              (st.balances ((st.drivers (st.rideRequests rideId).assignedDriverId).driverAddress) +
               ((st.rideRequests rideId).fare -
                (st.rideRequests rideId).fare * st.platformFeePercent / 10000))) st.owner +
             (st.rideRequests rideId).fare * st.platformFeePercent / 10000) ∧
          st'.events = st.events ++ [Event.RideCompleted rideId (st.rideRequests rideId).fare]) := by
  cases hco : completeRide caller accepts rideId st with
  | error e =>
    left
    exact ⟨e, rfl, by simp [applyOp, runOp, hco]⟩
  | ok st' =>
    right
    refine ⟨st', rfl, by simp [applyOp, runOp, hco], ?_⟩
    obtain ⟨-, -, -, -, hpf, hb2, hb3, rfl⟩ := completeRide_ok _ _ _ _ _ hco
    refine ⟨by simp [setMap], by omega, by simp only []; omega, rfl, rfl⟩

/-- C5: a successful `cancelRide` implies the caller is the original
requester and the ride was `Requested` or `Matched`; it refunds the full
escrowed fare to the requester and sets `Cancelled` atomically; a second
cancel on the same ride fails with `InvalidState`; and every failing
cancel leaves the state unchanged. -/
theorem cancelRide_spec (st : ContractState) (caller : Nat)
    (accepts : Nat → Bool) (rideId : Nat) (st' : ContractState)
    (h : cancelRide caller accepts rideId st = Except.ok st') :
    caller = (st.rideRequests rideId).passenger ∧
    ((st.rideRequests rideId).status = RideStatus.Requested ∨
     (st.rideRequests rideId).status = RideStatus.Matched) ∧
    (st'.rideRequests rideId).status = RideStatus.Cancelled ∧
    st'.balances ((st.rideRequests rideId).passenger) =
      st.balances ((st.rideRequests rideId).passenger) + (st.rideRequests rideId).fare ∧
    st'.contractBalance + (st.rideRequests rideId).fare = st.contractBalance ∧
    cancelRide caller accepts rideId st' = Except.error Err.InvalidState ∧
    (∀ st2 e, cancelRide caller accepts rideId st2 = Except.error e →
       applyOp st2 (Op.cancelRide caller accepts rideId) = st2) := by
  obtain ⟨hpass, hid, hstat, hbal, hacc, rfl⟩ := cancelRide_ok _ _ _ _ _ h
  refine ⟨hpass.symm, hstat, by simp [setMap], by simp [setMap], by simp only []; omega, ?_, ?_⟩
  · simp [cancelRide, setMap, hpass, hid]
  · intro st2 e he
    simp [applyOp, runOp, he]

theorem cancelRide_spec_witness :
    cancelRide 2 acceptAll 1 preMatchSt = Except.ok cancelledSt ∧
    ((2 : Nat) = (preMatchSt.rideRequests 1).passenger ∧
     ((preMatchSt.rideRequests 1).status = RideStatus.Requested ∨
      (preMatchSt.rideRequests 1).status = RideStatus.Matched) ∧
     (cancelledSt.rideRequests 1).status = RideStatus.Cancelled ∧
     cancelledSt.balances ((preMatchSt.rideRequests 1).passenger) =
       preMatchSt.balances ((preMatchSt.rideRequests 1).passenger) +
       (preMatchSt.rideRequests 1).fare ∧
     cancelledSt.contractBalance + (preMatchSt.rideRequests 1).fare =
       preMatchSt.contractBalance ∧
     cancelRide 2 acceptAll 1 cancelledSt = Except.error Err.InvalidState ∧
     (∀ st2 e, cancelRide 2 acceptAll 1 st2 = Except.error e →
        applyOp st2 (Op.cancelRide 2 acceptAll 1) = st2)) :=
  ⟨rfl, cancelRide_spec preMatchSt 2 acceptAll 1 cancelledSt rfl⟩


/-! ### Matching and notifications -/

/-- Scanning a list of drivers none of whom is available leaves the
accumulator untouched. -/
theorem scanDrivers_none (st : ContractState) (pickup : Location)
    (l : List Nat) (acc : Nat × Nat)
    (h : ∀ i ∈ l, (st.drivers i).isAvailable = false) :
    scanDrivers st pickup l acc = Except.ok acc := by
  induction l with
  | nil => rfl
  | cons i rest ih =>
    have hi : (st.drivers i).isAvailable = false := h i (List.mem_cons_self i rest)
    simp only [scanDrivers, hi]
    exact ih (fun j hj => h j (List.mem_cons_of_mem i hj))

/-- The scan only ever moves the accumulator to an available driver. -/
theorem scanDrivers_result_avail (st : ContractState) (pickup : Location)
    (l : List Nat) : ∀ (acc r : Nat × Nat),
    (acc.1 = 0 ∨ (st.drivers acc.1).isAvailable = true) →
    scanDrivers st pickup l acc = Except.ok r →
    (r.1 = 0 ∨ (st.drivers r.1).isAvailable = true) := by
  induction l with
  | nil =>
    intro acc r hacc h
    simp only [scanDrivers] at h
    cases h
    exact hacc
  | cons i rest ih =>
    intro acc r hacc h
    simp only [scanDrivers] at h
    by_cases hav : (st.drivers i).isAvailable = true
    · rw [if_pos hav] at h
      split at h
      · simp at h
      · rename_i d hd
        split at h
        · exact ih _ _ (Or.inr hav) h
        · exact ih _ _ hacc h
    · rw [if_neg hav] at h
      exact ih _ _ hacc h

/-- A nonzero result of `findNearestDriver` is an available driver. -/
theorem findNearestDriver_avail (st : ContractState) (rideId driverId : Nat)
    (h : findNearestDriver st rideId = Except.ok driverId)
    (hdz : driverId ≠ 0) :
    (st.drivers driverId).isAvailable = true := by
  simp only [findNearestDriver] at h
  split at h
  · simp at h
  · split at h
    · simp at h
    · split at h
      · simp at h
      · rename_i acc hacc
        simp only [Except.ok.injEq] at h
        subst h
        rcases scanDrivers_result_avail st _ _ _ _ (Or.inl rfl) hacc with h0 | hav
        · exact absurd h0 hdz
        · exact hav

/-- C8: `matchRide` on an existing `Requested` ride while no registered
driver is available fails with `NoAvailableDriver` and leaves the whole
state (in particular the ride, still `Requested`) unchanged. -/
theorem matchRide_no_driver (st : ContractState) (caller rideId : Nat)
    (h1 : (st.rideRequests rideId).id ≠ 0)
    (h2 : (st.rideRequests rideId).status = RideStatus.Requested)
    (h3 : ∀ i, 1 ≤ i → i ≤ st.driverCount → (st.drivers i).isAvailable = false) :
    matchRide caller rideId st = Except.error Err.NoAvailableDriver ∧
    applyOp st (Op.matchRide caller rideId) = st := by
  have hscan : scanDrivers st (st.rideRequests rideId).pickupLocation
      (List.range' 1 st.driverCount) (0, UINT_MAX) = Except.ok (0, UINT_MAX) := by
    refine scanDrivers_none st _ _ _ ?_
    intro i hi
    rw [List.mem_range'_1] at hi
    exact h3 i hi.1 (by omega)
  have hfind : findNearestDriver st rideId = Except.ok 0 := by
    simp only [findNearestDriver]
    rw [if_neg (by simpa using h1), if_neg (by simp [h2]), hscan]
  have hmatch : matchRide caller rideId st = Except.error Err.NoAvailableDriver := by
    simp only [matchRide]
    rw [if_neg (by simpa using h1), if_neg (by simp [h2]), hfind]
    simp
  exact ⟨hmatch, by simp [applyOp, runOp, hmatch]⟩


/-- Witness for `matchRide_no_driver` at a concrete state. -/
theorem matchRide_no_driver_witness :
    (noDriverSt.rideRequests 1).id ≠ 0 ∧
    (noDriverSt.rideRequests 1).status = RideStatus.Requested ∧
    (matchRide 7 1 noDriverSt = Except.error Err.NoAvailableDriver ∧
     applyOp noDriverSt (Op.matchRide 7 1) = noDriverSt) :=
  ⟨by decide, by decide,
   matchRide_no_driver noDriverSt 7 1 (by decide) (by decide)
     (by
       intro i hi1 hi2
       have : i = 1 := by
         have : noDriverSt.driverCount = 1 := by decide
         omega
       subst this
       decide)⟩

/-- C9: a successful `matchRide` leaves every driver record entirely
unchanged — in particular the assigned driver's `isAvailable` flag stays
`true` — and only appends the ride id to the assigned driver's ride
history (`driverRides` at the driver's address), so the driver can be
matched again to a concurrent ride. -/
theorem matchRide_driver_frame (st : ContractState) (caller rideId : Nat)
    (st' : ContractState) (h : matchRide caller rideId st = Except.ok st') :
    st'.drivers = st.drivers ∧
    (st'.rideRequests rideId).assignedDriverId ≠ 0 ∧
    (st.drivers ((st'.rideRequests rideId).assignedDriverId)).isAvailable = true ∧
    (st'.drivers ((st'.rideRequests rideId).assignedDriverId)).isAvailable = true ∧
    st'.driverRides
        ((st.drivers ((st'.rideRequests rideId).assignedDriverId)).driverAddress) =
      st.driverRides
        ((st.drivers ((st'.rideRequests rideId).assignedDriverId)).driverAddress) ++
        [rideId] ∧
    (∀ a, a ≠ (st.drivers ((st'.rideRequests rideId).assignedDriverId)).driverAddress →
       st'.driverRides a = st.driverRides a) := by
  obtain ⟨driverId, hdz, hfind, -, -, rfl⟩ := matchRide_ok _ _ _ _ h
  have hdid : (setMap st.rideRequests rideId
      { st.rideRequests rideId with
        assignedDriverId := driverId, status := RideStatus.Matched } rideId).assignedDriverId = driverId := by
    simp [setMap]
  have hav := findNearestDriver_avail st rideId driverId hfind hdz
  refine ⟨rfl, ?_, ?_, ?_, ?_, ?_⟩
  · simpa [setMap] using hdz
  · simpa [setMap] using hav
  · simpa [setMap] using hav
  · simp [setMap]
  · intro a ha
    simp only [setMap] at ha ⊢
    rw [if_neg (by simpa [setMap] using ha)]


/-- Witness for `matchRide_driver_frame` at a concrete match. -/
theorem matchRide_driver_frame_witness :
    matchRide 3 1 preMatchSt = Except.ok matchedSt ∧
    (matchedSt.drivers = preMatchSt.drivers ∧
     (matchedSt.rideRequests 1).assignedDriverId ≠ 0 ∧
     (preMatchSt.drivers ((matchedSt.rideRequests 1).assignedDriverId)).isAvailable = true ∧
     (matchedSt.drivers ((matchedSt.rideRequests 1).assignedDriverId)).isAvailable = true ∧
     matchedSt.driverRides
         ((preMatchSt.drivers ((matchedSt.rideRequests 1).assignedDriverId)).driverAddress) =
       preMatchSt.driverRides
         ((preMatchSt.drivers ((matchedSt.rideRequests 1).assignedDriverId)).driverAddress) ++
         [1] ∧
     (∀ a, a ≠ (preMatchSt.drivers ((matchedSt.rideRequests 1).assignedDriverId)).driverAddress →
        matchedSt.driverRides a = preMatchSt.driverRides a)) :=
  ⟨rfl, matchRide_driver_frame preMatchSt 3 1 matchedSt rfl⟩




/-- C10 counterexample: `setDriverAvailability`, `startRide` and
`updatePlatformFee` all succeed while emitting no notification at all,
refuting "every successful mutating operation emits exactly one". -/
theorem setAvailability_emits_nothing :
    runOp (Op.setDriverAvailability 1 1 false) twoDriverSt = Except.ok availFlipSt ∧
    availFlipSt.events.length = twoDriverSt.events.length ∧
    runOp (Op.startRide 1 1) (reach [Op.requestRide 2 50 0 0 0 0 0, Op.matchRide 3 1] twoDriverSt) =
      Except.ok (applyOp (reach [Op.requestRide 2 50 0 0 0 0 0, Op.matchRide 3 1] twoDriverSt) (Op.startRide 1 1)) ∧
    (applyOp (reach [Op.requestRide 2 50 0 0 0 0 0, Op.matchRide 3 1] twoDriverSt) (Op.startRide 1 1)).events.length =
      (reach [Op.requestRide 2 50 0 0 0 0 0, Op.matchRide 3 1] twoDriverSt).events.length ∧
    runOp (Op.updatePlatformFee 9 100) twoDriverSt =
      Except.ok (applyOp twoDriverSt (Op.updatePlatformFee 9 100)) ∧
    (applyOp twoDriverSt (Op.updatePlatformFee 9 100)).events.length =
      twoDriverSt.events.length := by
  refine ⟨rfl, by decide, rfl, by decide, rfl, by decide⟩

/-- C10 (amended): a successful invocation emits exactly one notification
for registration, location update, ride request, match, complete and
cancel, and none for availability change, ride start and fee update; a
failed invocation emits none (its transaction leaves the state, hence the
log, unchanged). -/
theorem op_event_count (st : ContractState) (op : Op) (st' : ContractState)
    (h : runOp op st = Except.ok st') :
    (st'.events.length = st.events.length + opEmitCount op) ∧
    (∀ (st2 : ContractState) (op2 : Op) (e : Err),
       runOp op2 st2 = Except.error e → applyOp st2 op2 = st2) := by
  refine ⟨?_, ?_⟩
  · cases op with
    | registerDriver c n cm lp la lo =>
      simp only [runOp] at h
      rw [registerDriver_eq] at h
      cases h
      simp [opEmitCount]
    | updateDriverLocation c d la lo =>
      simp only [runOp] at h
      obtain ⟨-, rfl⟩ := updateDriverLocation_ok _ _ _ _ _ _ h
      simp [opEmitCount]
    | setDriverAvailability c d a =>
      simp only [runOp] at h
      obtain ⟨-, rfl⟩ := setDriverAvailability_ok _ _ _ _ _ h
      simp [opEmitCount]
    | requestRide c v t pa pb da db =>
      simp only [runOp] at h
      obtain ⟨-, rfl⟩ := requestRide_ok _ _ _ _ _ _ _ _ _ h
      simp [opEmitCount]
    | matchRide c r =>
      simp only [runOp] at h
      obtain ⟨driverId, -, -, -, -, rfl⟩ := matchRide_ok _ _ _ _ h
      simp [opEmitCount]
    | startRide c r =>
      simp only [runOp] at h
      obtain ⟨-, -, -, rfl⟩ := startRide_ok _ _ _ _ h
      simp [opEmitCount]
    | completeRide c acc r =>
      simp only [runOp] at h
      obtain ⟨-, -, -, -, -, -, -, rfl⟩ := completeRide_ok _ _ _ _ _ h
      simp [opEmitCount]
    | cancelRide c acc r =>
      simp only [runOp] at h
      obtain ⟨-, -, -, -, -, rfl⟩ := cancelRide_ok _ _ _ _ _ h
      simp [opEmitCount]
    | updatePlatformFee c f =>
      simp only [runOp] at h
      obtain ⟨-, -, rfl⟩ := updatePlatformFee_ok _ _ _ _ h
      simp [opEmitCount]
  · intro st2 op2 e he
    simp [applyOp, he]


/-- Witness for `op_event_count`: one registration emits one event. -/
theorem op_event_count_witness :
    runOp (Op.registerDriver 1 "" "" "" 0 0) (initState 9) = Except.ok regSt ∧
    ((regSt.events.length = (initState 9).events.length +
        opEmitCount (Op.registerDriver 1 "" "" "" 0 0)) ∧
     (∀ (st2 : ContractState) (op2 : Op) (e : Err),
        runOp op2 st2 = Except.error e → applyOp st2 op2 = st2)) :=
  ⟨rfl, op_event_count (initState 9) (Op.registerDriver 1 "" "" "" 0 0) regSt rfl⟩


/-! ### Nearest-driver selection -/

/-- The checked absolute value agrees with `Int.natAbs` away from
`INT256_MIN`. -/
theorem absUint256_ok (d : Int) (h : d ≠ INT256_MIN) :
    absUint256 d = Except.ok d.natAbs := by
  unfold absUint256
  split <;>
    first
      | exact absurd (by assumption) h
      | (simp only [Except.ok.injEq]; omega)

/-- Checked multiplication succeeds within the uint256 range. -/
theorem mulU256_eq (a b : Nat) (h : a * b ≤ UINT_MAX) :
    mulU256 a b = Except.ok (a * b) := by
  unfold mulU256
  rw [if_neg (by omega)]

/-- Checked addition succeeds within the uint256 range. -/
theorem addU256_eq (a b : Nat) (h : a + b ≤ UINT_MAX) :
    addU256 a b = Except.ok (a + b) := by
  unfold addU256
  rw [if_neg (by omega)]

/-- With both operands below `2^126` in magnitude, the checked int256
subtraction succeeds, the difference is at most `2^127` in magnitude and
cannot be `INT256_MIN`. -/
theorem subInt256_small (a b : Int) (ha : a.natAbs ≤ 2 ^ 126)
    (hb : b.natAbs ≤ 2 ^ 126) :
    subInt256 a b = Except.ok (a - b) ∧ (a - b).natAbs ≤ 2 ^ 127 ∧
    a - b ≠ INT256_MIN := by
  have habs : (a - b).natAbs ≤ 2 ^ 127 := by
    have h1 := Int.natAbs_sub_le a b
    have h2 : (2:Nat) ^ 127 = 2 ^ 126 + 2 ^ 126 := by
      rw [pow_succ]; omega
    omega
  have hlt : (2:Nat) ^ 127 < 2 ^ 255 := Nat.pow_lt_pow_right (by norm_num) (by norm_num)
  have hcast : ((2:Int) ^ 255) = ((2 ^ 255 : Nat) : Int) := by push_cast
  refine ⟨?_, habs, ?_⟩
  · unfold subInt256
    have hc : ¬ (a - b < INT256_MIN ∨ INT256_MAX < a - b) := by
      unfold INT256_MIN INT256_MAX
      omega
    rw [if_neg hc]
  · unfold INT256_MIN
    omega

/-- With bounded coordinates the checked distance computation succeeds,
returns exactly `sqDistVal`, and stays strictly below `uint256` max. -/
theorem calculateSquaredDistance_ok (l1 l2 : Location)
    (h1 : CoordOK l1) (h2 : CoordOK l2) :
    calculateSquaredDistance l1.latitude l1.longitude l2.latitude l2.longitude =
      Except.ok (sqDistVal l1 l2) ∧ sqDistVal l1 l2 < UINT_MAX := by
  obtain ⟨ha1, ha2⟩ := h1
  obtain ⟨hb1, hb2⟩ := h2
  obtain ⟨hs1, hn1, hm1⟩ := subInt256_small l1.latitude l2.latitude ha1 hb1
  obtain ⟨hs2, hn2, hm2⟩ := subInt256_small l1.longitude l2.longitude ha2 hb2
  have hmul1 : (l1.latitude - l2.latitude).natAbs * (l1.latitude - l2.latitude).natAbs ≤ 2 ^ 254 := by
    calc (l1.latitude - l2.latitude).natAbs * (l1.latitude - l2.latitude).natAbs
        ≤ 2 ^ 127 * 2 ^ 127 := Nat.mul_le_mul hn1 hn1
      _ = 2 ^ 254 := by rw [← pow_add]
  have hmul2 : (l1.longitude - l2.longitude).natAbs * (l1.longitude - l2.longitude).natAbs ≤ 2 ^ 254 := by
    calc (l1.longitude - l2.longitude).natAbs * (l1.longitude - l2.longitude).natAbs
        ≤ 2 ^ 127 * 2 ^ 127 := Nat.mul_le_mul hn2 hn2
      _ = 2 ^ 254 := by rw [← pow_add]
  have hbig : (2:Nat) ^ 256 = 4 * 2 ^ 254 := by
    rw [show (256:Nat) = 2 + 254 from rfl, pow_add]
    norm_num
  have hone : (1:Nat) ≤ 2 ^ 254 := Nat.one_le_two_pow
  have hsum : sqDistVal l1 l2 < UINT_MAX := by
    unfold sqDistVal UINT_MAX
    omega
  refine ⟨?_, hsum⟩
  unfold calculateSquaredDistance
  rw [hs1]
  simp only []
  rw [hs2]
  simp only []
  rw [absUint256_ok _ hm1]
  simp only []
  rw [absUint256_ok _ hm2]
  simp only []
  rw [mulU256_eq _ _ (by unfold UINT_MAX; omega)]
  simp only []
  rw [mulU256_eq _ _ (by unfold UINT_MAX; omega)]
  simp only []
  rw [addU256_eq _ _ (by unfold UINT_MAX; omega)]
  rfl



/-- Invariants of the nearest-driver scan with bounded coordinates: the
scan succeeds; its result is the accumulator or an available scanned
driver holding the running minimum; the minimum strictly decreases on
every update; it bounds every available scanned distance; on equal
distances the scanned id is at least the selected one (first-tied-wins,
from the strict `<`); and an available driver in the scan forces an
available selection. -/
theorem scanDrivers_spec (st : ContractState) (pickup : Location)
    (hp : CoordOK pickup) (l : List Nat) :
    ∀ acc : Nat × Nat, l.Pairwise (· < ·) →
    (∀ i ∈ l, (st.drivers i).isAvailable = true → CoordOK (st.drivers i).location) →
    (acc = (0, UINT_MAX) ∨ (∀ j ∈ l, acc.1 < j)) →
    ∃ r, scanDrivers st pickup l acc = Except.ok r ∧
      (r = acc ∨ (r.1 ∈ l ∧ (st.drivers r.1).isAvailable = true ∧
                  sqDistVal pickup (st.drivers r.1).location = r.2)) ∧
      (r = acc ∨ r.2 < acc.2) ∧
      (∀ k ∈ l, (st.drivers k).isAvailable = true →
         r.2 ≤ sqDistVal pickup (st.drivers k).location) ∧
      (∀ k ∈ l, (st.drivers k).isAvailable = true →
         sqDistVal pickup (st.drivers k).location = r.2 → r.1 ≤ k) ∧
      ((∃ j ∈ l, (st.drivers j).isAvailable = true) →
         ((r.1 ∈ l ∧ (st.drivers r.1).isAvailable = true ∧
           sqDistVal pickup (st.drivers r.1).location = r.2) ∨
          (r = acc ∧ acc ≠ (0, UINT_MAX)))) := by
  induction l with
  | nil =>
    intro acc _ _ _
    refine ⟨acc, rfl, Or.inl rfl, Or.inl rfl, by simp, by simp, by simp⟩
  | cons i rest ih =>
    intro acc hl hcoord hacc
    have hl' : rest.Pairwise (· < ·) := hl.of_cons
    have hlt : ∀ j ∈ rest, i < j := fun j hj => List.rel_of_pairwise_cons hl hj
    have hcoord' : ∀ j ∈ rest, (st.drivers j).isAvailable = true →
        CoordOK (st.drivers j).location :=
      fun j hj => hcoord j (List.mem_cons_of_mem i hj)
    by_cases hav : (st.drivers i).isAvailable = true
    · obtain ⟨hcalc, hbound⟩ :=
        calculateSquaredDistance_ok pickup (st.drivers i).location hp
          (hcoord i (List.mem_cons_self i rest) hav)
      by_cases hless : sqDistVal pickup (st.drivers i).location < acc.2
      · -- update branch
        obtain ⟨r, hr, p1, p2, p3, p4, p5⟩ :=
          ih (i, sqDistVal pickup (st.drivers i).location) hl' hcoord'
            (Or.inr (fun j hj => hlt j hj))
        refine ⟨r, ?_, ?_, ?_, ?_, ?_, ?_⟩
        · simp only [scanDrivers, hav, if_pos, hcalc]
          rw [if_pos hless]
          exact hr
        · rcases p1 with p1 | p1
          · exact Or.inr ⟨by simp [p1], by simp [p1, hav], by simp [p1]⟩
          · exact Or.inr ⟨List.mem_cons_of_mem i p1.1, p1.2.1, p1.2.2⟩
        · rcases p2 with p2 | p2
          · rw [p2]; exact Or.inr hless
          · exact Or.inr (lt_trans p2 hless)
        · intro k hk hkav
          rcases List.mem_cons.mp hk with hk | hk
          · subst hk
            rcases p2 with p2 | p2
            · simp [p2]
            · exact le_of_lt p2
          · exact p3 k hk hkav
        · intro k hk hkav hkd
          rcases List.mem_cons.mp hk with hk | hk
          · subst hk
            rcases p2 with p2 | p2
            · simp [p2]
            · omega
          · exact p4 k hk hkav hkd
        · intro _
          rcases p1 with p1 | p1
          · exact Or.inl ⟨by simp [p1], by simp [p1, hav], by simp [p1]⟩
          · exact Or.inl ⟨List.mem_cons_of_mem i p1.1, p1.2.1, p1.2.2⟩
      · -- available but not closer
        obtain ⟨r, hr, p1, p2, p3, p4, p5⟩ := ih acc hl' hcoord'
          (hacc.imp id (fun hord j hj => hord j (List.mem_cons_of_mem i hj)))
        refine ⟨r, ?_, ?_, ?_, ?_, ?_, ?_⟩
        · simp only [scanDrivers, hav, if_pos, hcalc]
          rw [if_neg hless]
          exact hr
        · rcases p1 with p1 | p1
          · exact Or.inl p1
          · exact Or.inr ⟨List.mem_cons_of_mem i p1.1, p1.2.1, p1.2.2⟩
        · exact p2
        · intro k hk hkav
          rcases List.mem_cons.mp hk with hk | hk
          · subst hk
            rcases p2 with p2 | p2
            · rw [p2]; omega
            · omega
          · exact p3 k hk hkav
        · intro k hk hkav hkd
          rcases List.mem_cons.mp hk with hk | hk
          · subst hk
            rcases p2 with p2 | p2
            · -- r = acc; need r.1 ≤ k = i
              rcases hacc with hacc | hacc
              · -- acc = (0, UINT_MAX): then d i = r.2 = UINT_MAX contradicts bound
                rw [p2, hacc] at hkd
                simp only [] at hkd
                omega
              · rw [p2]
                exact le_of_lt (hacc _ (List.mem_cons_self _ _))
            · -- r.2 < acc.2 ≤ d i = r.2, contradiction
              omega
          · exact p4 k hk hkav hkd
        · intro _
          rcases p1 with p1 | p1
          · -- r = acc, and acc ≠ (0, UINT_MAX) since acc.2 ≤ d i < UINT_MAX
            refine Or.inr ⟨p1, ?_⟩
            intro hacc0
            rw [hacc0] at hless
            simp only [] at hless
            omega
          · exact Or.inl ⟨List.mem_cons_of_mem i p1.1, p1.2.1, p1.2.2⟩
    · -- unavailable driver: skipped
      obtain ⟨r, hr, p1, p2, p3, p4, p5⟩ := ih acc hl' hcoord'
        (hacc.imp id (fun hord j hj => hord j (List.mem_cons_of_mem i hj)))
      refine ⟨r, ?_, ?_, ?_, ?_, ?_, ?_⟩
      · simp only [scanDrivers]
        rw [if_neg hav]
        exact hr
      · rcases p1 with p1 | p1
        · exact Or.inl p1
        · exact Or.inr ⟨List.mem_cons_of_mem i p1.1, p1.2.1, p1.2.2⟩
      · exact p2
      · intro k hk hkav
        rcases List.mem_cons.mp hk with hk | hk
        · subst hk; exact absurd hkav hav
        · exact p3 k hk hkav
      · intro k hk hkav hkd
        rcases List.mem_cons.mp hk with hk | hk
        · subst hk; exact absurd hkav hav
        · exact p4 k hk hkav hkd
      · intro hex
        obtain ⟨j, hj, hjav⟩ := hex
        rcases List.mem_cons.mp hj with hj | hj
        · subst hj; exact absurd hjav hav
        · exact (p5 ⟨j, hj, hjav⟩).imp
            (fun hq => ⟨List.mem_cons_of_mem _ hq.1, hq.2.1, hq.2.2⟩) id


/-- C3: for an existing `Requested` ride (with coordinates in the
representable range), `findNearestDriver` scans drivers `1..driverCount`
and returns 0 when none is available; when some driver is available it
returns an available driver id minimizing the squared planar distance to
the pickup, and on exact ties in squared distance the smallest id
(earliest registered) wins, thanks to the strict `<` comparison. -/
theorem findNearestDriver_spec (st : ContractState) (rideId : Nat)
    (h1 : (st.rideRequests rideId).id ≠ 0)
    (h2 : (st.rideRequests rideId).status = RideStatus.Requested)
    (hp : CoordOK (st.rideRequests rideId).pickupLocation)
    (hd : ∀ i, 1 ≤ i → i ≤ st.driverCount → (st.drivers i).isAvailable = true →
       CoordOK (st.drivers i).location) :
    ∃ r, findNearestDriver st rideId = Except.ok r ∧
      ((∀ i, 1 ≤ i → i ≤ st.driverCount → (st.drivers i).isAvailable = false) →
        r = 0) ∧
      (∀ i, 1 ≤ i → i ≤ st.driverCount → (st.drivers i).isAvailable = true →
         1 ≤ r ∧ r ≤ st.driverCount ∧ (st.drivers r).isAvailable = true ∧
         sqDistVal (st.rideRequests rideId).pickupLocation (st.drivers r).location ≤
           sqDistVal (st.rideRequests rideId).pickupLocation (st.drivers i).location ∧
         (sqDistVal (st.rideRequests rideId).pickupLocation (st.drivers i).location =
            sqDistVal (st.rideRequests rideId).pickupLocation (st.drivers r).location →
          r ≤ i)) := by
  have hpw : (List.range' 1 st.driverCount).Pairwise (· < ·) :=
    List.pairwise_lt_range' 1 _
  obtain ⟨racc, hscan, p1, p2, p3, p4, p5⟩ :=
    scanDrivers_spec st (st.rideRequests rideId).pickupLocation hp
      (List.range' 1 st.driverCount) (0, UINT_MAX) hpw
      (fun i hi hav => hd i ((List.mem_range'_1.mp hi).1)
        (by have := (List.mem_range'_1.mp hi).2; omega) hav)
      (Or.inl rfl)
  refine ⟨racc.1, ?_, ?_, ?_⟩
  · simp only [findNearestDriver]
    rw [if_neg (by simpa using h1), if_neg (by simp [h2]), hscan]
  · intro hnone
    rcases p1 with p1 | p1
    · rw [p1]
    · exfalso
      have hb := List.mem_range'_1.mp p1.1
      have hfa := hnone racc.1 hb.1 (by omega)
      rw [p1.2.1] at hfa
      cases hfa
  · intro i hi1 hi2 hav
    have himem : i ∈ List.range' 1 st.driverCount :=
      List.mem_range'_1.mpr ⟨hi1, by omega⟩
    rcases p5 ⟨i, himem, hav⟩ with hq | hq
    · have hmem := List.mem_range'_1.mp hq.1
      refine ⟨hmem.1, by omega, hq.2.1, ?_, ?_⟩
      · rw [hq.2.2]
        exact p3 i himem hav
      · intro he
        exact p4 i himem hav (by rw [he, hq.2.2])
    · exact absurd rfl hq.2

/-- Witness for `findNearestDriver_spec`: pickup at the origin, available
drivers at `(10,0)` and `(5,0)`; the closer driver 2 is returned. -/
theorem findNearestDriver_spec_witness :
    findNearestDriver nearestDemoSt 1 = Except.ok 2 ∧
    (∃ r, findNearestDriver nearestDemoSt 1 = Except.ok r ∧
      ((∀ i, 1 ≤ i → i ≤ nearestDemoSt.driverCount →
          (nearestDemoSt.drivers i).isAvailable = false) → r = 0) ∧
      (∀ i, 1 ≤ i → i ≤ nearestDemoSt.driverCount →
          (nearestDemoSt.drivers i).isAvailable = true →
         1 ≤ r ∧ r ≤ nearestDemoSt.driverCount ∧
         (nearestDemoSt.drivers r).isAvailable = true ∧
         sqDistVal (nearestDemoSt.rideRequests 1).pickupLocation
             (nearestDemoSt.drivers r).location ≤
           sqDistVal (nearestDemoSt.rideRequests 1).pickupLocation
             (nearestDemoSt.drivers i).location ∧
         (sqDistVal (nearestDemoSt.rideRequests 1).pickupLocation
              (nearestDemoSt.drivers i).location =
            sqDistVal (nearestDemoSt.rideRequests 1).pickupLocation
              (nearestDemoSt.drivers r).location →
          r ≤ i))) :=
  ⟨rfl,
   findNearestDriver_spec nearestDemoSt 1 (by decide) (by decide)
     (⟨by decide, by decide⟩)
     (by
       intro i hi1 hi2 hav
       have hc : i = 1 ∨ i = 2 := by
         have hdc : nearestDemoSt.driverCount = 2 := by decide
         omega
       rcases hc with hc | hc <;> subst hc <;> exact ⟨by decide, by decide⟩)⟩

end RideMatch
